import Mathlib

/-!
Shallow embedding of the mcskinserver repository (src/config.py,
src/hdskins/mojang.py, src/valhalla/api/v1.py) and proofs about its
specification claims.  Machine integers are modelled as `Nat` with explicit
reduction modulo `2 ^ 32` where the Python code relies on 32-bit words
(inside the SHA-1 computation); fallible request handlers return `Except`.
-/

namespace Valhalla

/-! ## HTTP primitives

Flask `abort(status, message)` raises an `HTTPException`; we model an aborted
request as an `Except.error` carrying the status code and message. -/

structure HttpAbort where
  status : Nat
  message : String
deriving DecidableEq

/-- A successful Flask response value `(body, status)`. -/
abbrev Rsp := String × Nat

/-! ## SHA-1 over byte lists

Embeds `hashlib.sha1(...).hexdigest()` as used by `gen_skin_hash`
(src/valhalla/api/v1.py:185).  The hash input is a list of byte values. -/

/-- Reduce modulo `2 ^ 32`, the word size of the SHA-1 state. -/
def w32 (n : Nat) : Nat := n % 4294967296

/-- Rotate a 32-bit word left by `s` bits. -/
def rotl (x s : Nat) : Nat := w32 (x * 2 ^ s) + x / 2 ^ (32 - s)

/-- The SHA-1 round constants K(t). -/
def sha1K (t : Nat) : Nat :=
  if t < 20 then 1518500249
  else if t < 40 then 1859775393
  else if t < 60 then 2400959708
  else 3395469782

/-- The SHA-1 round functions f(t, b, c, d). -/
def sha1F (t b c d : Nat) : Nat :=
  if t < 20 then Nat.lor (Nat.land b c) (Nat.land (Nat.xor b 4294967295) d)
  else if t < 40 then Nat.xor (Nat.xor b c) d
  else if t < 60 then Nat.lor (Nat.lor (Nat.land b c) (Nat.land b d)) (Nat.land c d)
  else Nat.xor (Nat.xor b c) d

/-- Read the big-endian 32-bit word number `i` of a byte block. -/
def wordBE (block : List Nat) (i : Nat) : Nat :=
  block.getD (4 * i) 0 * 16777216 + block.getD (4 * i + 1) 0 * 65536 +
    block.getD (4 * i + 2) 0 * 256 + block.getD (4 * i + 3) 0

/-- The 80-entry SHA-1 message schedule of one 64-byte block. -/
def sha1Ws (block : List Nat) : Array Nat :=
  let w16 := (List.range 16).foldl (fun a i => a.push (wordBE block i)) (Array.mkEmpty 80)
  (List.range 64).foldl
    (fun a i =>
      let t := i + 16
      a.push (rotl (Nat.xor (Nat.xor (a.getD (t - 3) 0) (a.getD (t - 8) 0))
        (Nat.xor (a.getD (t - 14) 0) (a.getD (t - 16) 0))) 1))
    w16

/-- The five 32-bit words of the SHA-1 state. -/
structure Sha1State where
  a : Nat
  b : Nat
  c : Nat
  d : Nat
  e : Nat
deriving DecidableEq

/-- One SHA-1 round: update the working state with word `t` of the schedule. -/
def sha1Round (w : Array Nat) (s : Sha1State) (t : Nat) : Sha1State :=
  ⟨w32 (rotl s.a 5 + sha1F t s.b s.c s.d + s.e + w.getD t 0 + sha1K t),
    s.a, rotl s.b 30, s.c, s.d⟩

/-- Compress one 64-byte block into the running SHA-1 state. -/
def sha1Compress (h : Sha1State) (block : List Nat) : Sha1State :=
  let w := sha1Ws block
  let s := (List.range 80).foldl (sha1Round w) h
  ⟨w32 (h.a + s.a), w32 (h.b + s.b), w32 (h.c + s.c), w32 (h.d + s.d), w32 (h.e + s.e)⟩

/-- The SHA-1 initialisation vector. -/
def sha1Init : Sha1State := ⟨1732584193, 4023233417, 2562383102, 271733878, 3285377520⟩

/-- Big-endian rendering of `v` as `n` bytes. -/
def bytesBE (n v : Nat) : List Nat :=
  (List.range n).map (fun i => v / 2 ^ (8 * (n - 1 - i)) % 256)

/-- SHA-1 padding: append `0x80`, zero bytes, and the 64-bit message bit length. -/
def sha1Pad (msg : List Nat) : List Nat :=
  msg ++ [128] ++ List.replicate ((119 - msg.length % 64) % 64) 0 ++ bytesBE 8 (msg.length * 8)

/-- Split a byte list into 64-byte blocks. -/
def chunks64 : List Nat → List (List Nat)
  | [] => []
  | a :: rest => ((a :: rest).take 64) :: chunks64 ((a :: rest).drop 64)
termination_by l => l.length
decreasing_by simp [List.length_drop]; omega

/-- The 20-byte SHA-1 digest of a byte list. -/
def sha1Digest (msg : List Nat) : List Nat :=
  let s := (chunks64 (sha1Pad msg)).foldl sha1Compress sha1Init
  bytesBE 4 s.a ++ bytesBE 4 s.b ++ bytesBE 4 s.c ++ bytesBE 4 s.d ++ bytesBE 4 s.e

/-- The sixteen lowercase hexadecimal digit characters. -/
def hexChars : List Char := "0123456789abcdef".data

/-- The lowercase hex digit of a nibble. -/
def nibbleChar (n : Nat) : Char := hexChars.getD n ('0')

/-- The two lowercase hex digits of a byte. -/
def byteHexChars (b : Nat) : List Char := [nibbleChar (b / 16 % 16), nibbleChar (b % 16)]

/-- Embeds `hashlib.sha1(msg).hexdigest()`: the lowercase-hex SHA-1 digest
string. -/
def sha1Hex (msg : List Nat) : String :=
  String.mk ((sha1Digest msg).foldr (fun b acc => byteHexChars b ++ acc) [])

/-! ## Images and uploads

PIL is a third-party library; its decoding result is part of the model input.
`Img` is what a successful `PIL.Image.open` yields: the detected `format`
string, the pixel `width`/`height` (`image.size`), and the decoded pixel byte
buffer `image.tobytes()`. -/

structure Img where
  format : String
  width : Nat
  height : Nat
  pixelBytes : List Nat
deriving DecidableEq

/-- An uploaded payload: the raw bytes handed to `put_texture`, together with
the outcome of PIL decoding those bytes (`none` when PIL cannot identify an
image, in which case `Image.open` raises and the request fails with an
unhandled-exception status). -/
structure UploadFile where
  raw : List Nat
  decoded : Option Img
deriving DecidableEq

/-- The supported width set of `gen_skin_hash` (src/valhalla/api/v1.py:177). -/
def sizes : List Nat := [64, 128, 256, 512, 1024]

/-- Embeds `gen_skin_hash` (src/valhalla/api/v1.py:166-185).  Python computes
`width / 2 == height` with exact float division; for the integer sizes
involved this coincides with `width = 2 * height`, which is how it is
rendered here.  A non-PNG detected format aborts with 400; unsupported
dimensions abort with 404 (as in the source); on success the result is the
lowercase-hex SHA-1 of the decoded pixel buffer. -/
def gen_skin_hash (file : UploadFile) : Except HttpAbort String :=
  match file.decoded with
  | none => Except.error ⟨500, "cannot identify image file"⟩
  | some image =>
    if image.format ≠ "PNG" then
      Except.error ⟨400, "Format not allowed: " ++ image.format⟩
    else if ¬ (image.width = 2 * image.height ∨ image.width = image.height)
        ∨ image.width ∉ sizes then
      Except.error ⟨404, "Unsupported image size"⟩
    else
      Except.ok (sha1Hex image.pixelBytes)

/-! ## Data model and database state

Relational rows as used by src/valhalla/api/v1.py.  `Upload` is the Blob
entity keyed by content hash; `Texture` is the append-only history row whose
`upload` field is an optional blob reference (`none` is a tombstone). -/

structure User where
  id : Nat
  uuid : String
  name : String
deriving DecidableEq

structure Upload where
  hash : String
  userId : Nat
deriving DecidableEq

structure MetadataRow where
  key : String
  value : String
deriving DecidableEq

structure Texture where
  id : Nat
  userId : Nat
  tex_type : String
  upload : Option Upload
  meta : List MetadataRow
deriving DecidableEq

/-- The committed relational store.  `nextTextureId` models the monotonically
increasing history-row identifier assigned on insert. -/
structure DB where
  users : List User
  uploads : List Upload
  textures : List Texture
  nextTextureId : Nat
deriving DecidableEq

/-- The blob storage location: a flat namespace of named byte objects. -/
structure Storage where
  objects : List (String × List Nat)
deriving DecidableEq

/-- Embeds `fs.open(skin_hash, "wb")` followed by `f.write(file)`: create or
truncate the object named `name` and write `bytes` to it. -/
def open_fs_write (st : Storage) (name : String) (bytes : List Nat) : Storage :=
  ⟨st.objects.filter (fun o => decide (o.1 ≠ name)) ++ [(name, bytes)]⟩

/-- Python `dict(pairs)`: keep, for each key, its last value, in first-seen
key order.  Used for `**dict(metadata)`. -/
def dictPairs (l : List (String × String)) : List (String × String) :=
  l.foldl (fun acc kv => acc.filter (fun e => decide (e.1 ≠ kv.1)) ++ [kv]) []

/-- Embeds `put_texture` (src/valhalla/api/v1.py:188-204).  When no Blob row
with the computed hash exists, the bytes are written to storage and a new
`Upload` row is added, but the local variable `upload` is bound to the result
of `db.session.add(...)`, which is Python `None`; the new `Texture` row is
built from that local, so its blob reference is `none` on that branch.  When
a row is found, the `Texture` row references it.  The whole operation is
committed at the end (`db.session.commit()`), so the returned `DB` is the
committed state. -/
def put_texture (db : DB) (st : Storage) (user : User) (file : UploadFile)
    (skin_type : String) (metadata : List (String × String)) :
    Except HttpAbort (DB × Storage) :=
  match gen_skin_hash file with
  | Except.error e => Except.error e
  | Except.ok skin_hash =>
    match db.uploads.find? (fun u => decide (u.hash = skin_hash)) with
    | none =>
      let st2 := open_fs_write st skin_hash file.raw
      let uploadRef : Option Upload := none
      let tex : Texture := ⟨db.nextTextureId, user.id, skin_type, uploadRef,
        (dictPairs metadata).map (fun kv => ⟨kv.1, kv.2⟩)⟩
      Except.ok (⟨db.users, db.uploads ++ [⟨skin_hash, user.id⟩],
        db.textures ++ [tex], db.nextTextureId + 1⟩, st2)
    | some found =>
      let tex : Texture := ⟨db.nextTextureId, user.id, skin_type, some found,
        (dictPairs metadata).map (fun kv => ⟨kv.1, kv.2⟩)⟩
      Except.ok (⟨db.users, db.uploads, db.textures ++ [tex], db.nextTextureId + 1⟩, st)

/-! ## Configuration (src/config.py) -/

/-- Embeds `Config.OFFLINE = bool(os.getenv('OFFLINE', False))`
(src/config.py:11).  `env` is the value of the `OFFLINE` environment
variable (`none` when unset); `os.getenv` then yields the default `False`,
and Python `bool` of a string is true exactly for non-empty strings. -/
def config_OFFLINE (env : Option String) : Bool :=
  match env with
  | none => false
  | some s => if s = "" then false else true

/-- The configured texture-type blacklist, `Config.SKIN_BLACKLIST`
(src/config.py:12), returned by the application helper `blacklist()`. -/
def blacklist : List String := ["cape"]

/-! ## Token verification (src/valhalla/api/v1.py:26-47)

The `itsdangerous` serializer is a third-party library; the outcome of
`s.loads(token)` on the presented token is part of the model input. -/

/-- The outcome of deserialising a bearer token: expired signature, corrupt
signature, or a valid payload `{id: ...}`. -/
inductive TokenDecode where
  | expired
  | bad
  | ok (id : Nat)
deriving DecidableEq

/-- Embeds `auth_failed` (src/valhalla/api/v1.py:31-33), the registered
`@auth.error_handler`: `abort(401)`. -/
def auth_failed : HttpAbort := ⟨401, ""⟩

/-- Embeds `verify_auth_token` (src/valhalla/api/v1.py:36-47).  `lookup` is
`User.get`, resolving a surrogate id to a `User` row.  On a valid token the
callback stores and returns `User.get(data['id'])`, which may be `none`. -/
def verify_auth_token (decode : TokenDecode) (lookup : Nat → Option User) :
    Except HttpAbort (Option User) :=
  match decode with
  | TokenDecode.expired => Except.error ⟨401, "Token expired"⟩
  | TokenDecode.bad => Except.error ⟨401, "Bad token"⟩
  | TokenDecode.ok id => Except.ok (lookup id)

/-- Models the `flask_httpauth` `@auth.login_required` dispatch (third-party
glue): run the verify callback; a raised abort propagates; a falsy result
(here `none`) invokes the registered error handler `auth_failed`; otherwise
the request proceeds with the authenticated user. -/
def login_required (decode : TokenDecode) (lookup : Nat → Option User)
    (handler : User → Except HttpAbort Rsp) : Except HttpAbort Rsp :=
  match verify_auth_token decode lookup with
  | Except.error e => Except.error e
  | Except.ok none => Except.error auth_failed
  | Except.ok (some u) => handler u

/-! ## Texture resource (src/valhalla/api/v1.py:50-163) -/

/-- Embeds `require_formdata` (src/valhalla/api/v1.py:50-61): for each
required field name missing from the request form it aborts with status 404
and message "Missing required form: '<field>'"; `none` means all fields are
present and the wrapped handler runs. -/
def require_formdata (formdata : List String) (form : List (String × String)) :
    Option HttpAbort :=
  match formdata.find? (fun d => ! form.any (fun kv => decide (kv.1 = d))) with
  | some d => some ⟨404, "Missing required form: \x27" ++ d ++ "\x27"⟩
  | none => none

/-- Embeds the pre-dispatch checks of `TextureResource.dispatch_request`
(src/valhalla/api/v1.py:122-128), run after `@auth.login_required` with the
authenticated user `g_user`: blacklisted type aborts 400, then a target user
different from the authenticated user aborts 403. -/
def dispatch_checks (g_user user : User) (skin_type : String) : Option HttpAbort :=
  if skin_type ∈ blacklist then
    some ⟨400, "Type \x27" ++ skin_type ++ "\x27 is not allowed. "⟩
  else if user ≠ g_user then
    some ⟨403, "Cannot change another user\x27s textures"⟩
  else none

/-- Embeds the pre-dispatch checks followed by `TextureResource.post`
(src/valhalla/api/v1.py:130-140), upload by reference, including the
`@require_formdata('file')` decorator: the computation performed by
`super().dispatch_request(user, skin_type)` inside the overridden
`dispatch_request`.  `download` is the outcome of `requests.get(url)` on the
form's file URL (third-party): `none` when the response is not ok (abort
400), otherwise the downloaded payload.  The remaining form fields become
metadata.  On success the verb handler returns `("", 202)` — a value the
overridden `dispatch_request` then discards, see `dispatch_request`. -/
def texture_post (db : DB) (st : Storage) (g_user user : User) (skin_type : String)
    (form : List (String × String)) (download : Option UploadFile) :
    Except HttpAbort (Rsp × DB × Storage) :=
  match dispatch_checks g_user user skin_type with
  | some e => Except.error e
  | none =>
    match require_formdata (["file"]) form with
    | some e => Except.error e
    | none =>
      match download with
      | none => Except.error ⟨400, "File download failed"⟩
      | some file =>
        let metadata := form.filter (fun kv => decide (kv.1 ≠ "file"))
        match put_texture db st user file skin_type metadata with
        | Except.error e => Except.error e
        | Except.ok p => Except.ok (("", 202), p)

/-- A Werkzeug `FileStorage` as found in `request.files`: `truthy` is Python
`bool(file)` (false for a field with an empty filename), `content` the
uploaded payload. -/
structure FileStorage where
  truthy : Bool
  content : UploadFile
deriving DecidableEq

/-- Embeds the pre-dispatch checks followed by `TextureResource.put`
(src/valhalla/api/v1.py:142-153), upload by direct file: a missing file
field aborts 400, a falsy file aborts 400, otherwise the bytes go through
`put_texture` with the form fields as metadata and the verb handler returns
`("", 202)` — a value the overridden `dispatch_request` then discards, see
`dispatch_request`. -/
def texture_put (db : DB) (st : Storage) (g_user user : User) (skin_type : String)
    (form : List (String × String)) (files : Option FileStorage) :
    Except HttpAbort (Rsp × DB × Storage) :=
  match dispatch_checks g_user user skin_type with
  | some e => Except.error e
  | none =>
    match files with
    | none => Except.error ⟨400, "Missing required file: file"⟩
    | some fs =>
      if fs.truthy = false then Except.error ⟨400, "Empty file?"⟩
      else
        match put_texture db st user fs.content skin_type form with
        | Except.error e => Except.error e
        | Except.ok p => Except.ok (("", 202), p)

/-- Embeds the pre-dispatch checks followed by `TextureResource.delete`
(src/valhalla/api/v1.py:155-163): insert a tombstone `Texture` row
(`upload=None`, `metadata=None`), commit, and return `("\x7b\x7d", 202)` —
the literal body is the two-character string of an empty JSON object, and
the overridden `dispatch_request` then discards this value, see
`dispatch_request`. -/
def texture_delete (db : DB) (g_user user : User) (skin_type : String) :
    Except HttpAbort (Rsp × DB) :=
  match dispatch_checks g_user user skin_type with
  | some e => Except.error e
  | none =>
    let tex : Texture := ⟨db.nextTextureId, user.id, skin_type, none, []⟩
    Except.ok (("\x7b\x7d", 202),
      ⟨db.users, db.uploads, db.textures ++ [tex], db.nextTextureId + 1⟩)

/-- Embeds the return behaviour of `TextureResource.dispatch_request`
(src/valhalla/api/v1.py:122-128): the method runs the checks and the verb
handler via `super().dispatch_request(user, skin_type)` — so aborts
propagate and side effects happen — but it does not return that call's
result, so on every non-abort path the method returns Python `None`.  The
first component of the result is the value `dispatch_request` actually
returns: always `none`, never the verb handler's response value; the second
component carries the verb handler's side effects. -/
def dispatch_request {α : Type} (handler : Except HttpAbort (Rsp × α)) :
    Except HttpAbort (Option Rsp × α) :=
  match handler with
  | Except.error e => Except.error e
  | Except.ok p => Except.ok (none, p.2)

/-! ## User profile resource (src/valhalla/api/v1.py:64-111) -/

/-- One value of the profile `textures` map: the blob URL and the row's
metadata pairs (the `metadata` key is emitted only when the list is
non-empty, which we record by keeping the possibly empty list). -/
structure TexEntry where
  url : String
  metadata : List MetadataRow
deriving DecidableEq

/-- Descending insertion by history-row id, the order produced by
`order_by(Texture.id).reverse()`. -/
def insertDescById (t : Texture) : List Texture → List Texture
  | [] => [t]
  | u :: us => if u.id ≤ t.id then t :: u :: us else u :: insertDescById t us

/-- Sort texture rows by descending id. -/
def sortDescById : List Texture → List Texture
  | [] => []
  | t :: ts => insertDescById t (sortDescById ts)

/-- Keep the first row of each texture type, skipping types in `seen`:
the `distinct(Texture.tex_type)` step of the active-texture query. -/
def distinctByTypeAux (seen : List String) : List Texture → List Texture
  | [] => []
  | t :: ts =>
    if t.tex_type ∈ seen then distinctByTypeAux seen ts
    else t :: distinctByTypeAux (t.tex_type :: seen) ts

/-- Keep the first row of each texture type. -/
def distinctByType (l : List Texture) : List Texture := distinctByTypeAux [] l

/-- The active-texture query of `UserResource.get`
(src/valhalla/api/v1.py:88-92): the user's history rows ordered by
descending id, reduced to the first (most recent) row per texture type. -/
def activeQuery (db : DB) (user : User) : List Texture :=
  distinctByType (sortDescById (db.textures.filter (fun t => decide (t.userId = user.id))))

/-- One entry of `textures_json`: skipped when the row's blob reference is
absent, otherwise keyed by the upper-cased type with the blob URL and the
row's metadata. -/
def textureEntry (rootUrl : String) (t : Texture) : Option (String × TexEntry) :=
  match t.upload with
  | none => none
  | some up => some (t.tex_type.toUpper, ⟨rootUrl ++ "/textures/" ++ up.hash, t.meta⟩)

/-- The generator `textures_json` of `UserResource.get`
(src/valhalla/api/v1.py:74-86) applied to the active rows. -/
def textures_json (rootUrl : String) (l : List Texture) : List (String × TexEntry) :=
  l.filterMap (textureEntry rootUrl)

/-- Python `dict(pairs)[k]` style lookup over yielded pairs: the last pair
with key `k` wins. -/
def dictLookup (l : List (String × TexEntry)) (k : String) : Option TexEntry :=
  (l.reverse.find? (fun e => decide (e.1 = k))).map (fun e => e.2)

/-- The JSON document of a successful profile response; the `timestamp`
field (current UTC time) is real-time environment data and is omitted from
the model. -/
structure ProfileRsp where
  profileId : String
  profileName : String
  textures : List (String × TexEntry)
deriving DecidableEq

/-- Embeds `UserResource.get` (src/valhalla/api/v1.py:64-111) for a resolved
user: build the textures map from the active rows; when it is empty, abort
404 "Skins not found". -/
def user_get (rootUrl : String) (db : DB) (user : User) : Except HttpAbort ProfileRsp :=
  let texs := textures_json rootUrl (activeQuery db user)
  if texs.isEmpty then Except.error ⟨404, "Skins not found"⟩
  else Except.ok ⟨user.uuid, user.name, texs⟩

/-! ## Auth response (src/valhalla/api/v1.py:235-294) -/

/-- The pending-verification cache `validate_tokens`, keyed by account name,
holding the verify token and the requester address. -/
abbrev TokenCache := List (String × (Nat × String))

/-- Look up a pending-verification entry by name. -/
def cacheLookup (c : TokenCache) (name : String) : Option (Nat × String) :=
  (c.find? (fun e => decide (e.1 = name))).map (fun e => e.2)

/-- Embeds `del validate_tokens[name]`. -/
def cacheErase (c : TokenCache) (name : String) : TokenCache :=
  c.filter (fun e => decide (e.1 ≠ name))

/-- The outcome of `get_or_create_user` (src/valhalla/api/v1.py:286-294):
the returned user, the committed database afterwards, the rows added to the
session but not committed, and whether `db.session.commit()` ran. -/
structure GocuResult where
  user : User
  db : DB
  sessionPending : List User
  committed : Bool
deriving DecidableEq

/-- Embeds `get_or_create_user` (src/valhalla/api/v1.py:286-294).  A fresh
uuid constructs a `User` and calls `db.session.add(user)` — with no commit
on this branch, so the row stays session-pending.  An existing uuid has its
display name overwritten and committed. -/
def get_or_create_user (db : DB) (uuid name : String) : GocuResult :=
  match db.users.find? (fun u => decide (u.uuid = uuid)) with
  | none =>
    let u : User := ⟨0, uuid, name⟩
    ⟨u, db, [u], false⟩
  | some u =>
    let u2 : User := ⟨u.id, u.uuid, name⟩
    ⟨u2, ⟨db.users.map (fun v => if v.uuid = uuid then u2 else v),
      db.uploads, db.textures, db.nextTextureId⟩, [], true⟩

/-- The observable outcome of one `AuthResponseResource.post` request: the
response (the uuid echoed as `userId` on success), the pending-verification
cache afterwards, the committed database, the session rows left uncommitted,
and the number of `db.session.commit()` calls made during the request. -/
structure AuthResult where
  result : Except HttpAbort String
  cache : TokenCache
  db : DB
  sessionPending : List User
  commits : Nat

/-- Embeds `AuthResponseResource.post` (src/valhalla/api/v1.py:241-283).
`hasJoined` is the outcome of the Mojang `has_joined` session check
(third-party network call): `none` when the platform response is not ok,
otherwise the confirmed `(id, name)` payload.  Offline mode aborts 501; a
missing pending entry aborts 403; once the entry is read, the
`try/finally` deletes it from the cache on every path; token and address
mismatches abort 403; a platform rejection aborts 403; otherwise
`get_or_create_user` runs and the response is issued. -/
def authResponse (offline : Bool) (cache : TokenCache) (db : DB)
    (name : String) (verifyToken : Nat) (remoteAddr : String)
    (hasJoined : Option (String × String)) : AuthResult :=
  if offline then ⟨Except.error ⟨501, ""⟩, cache, db, [], 0⟩
  else
    match cacheLookup cache name with
    | none =>
      ⟨Except.error ⟨403, "The user has not requested a token or it has expired"⟩,
        cache, db, [], 0⟩
    | some ta =>
      let cache2 := cacheErase cache name
      if ta.1 ≠ verifyToken then
        ⟨Except.error ⟨403, "The verify token is not valid"⟩, cache2, db, [], 0⟩
      else if ta.2 ≠ remoteAddr then
        ⟨Except.error ⟨403, "IP does not match"⟩, cache2, db, [], 0⟩
      else
        match hasJoined with
        | none => ⟨Except.error ⟨403, ""⟩, cache2, db, [], 0⟩
        | some un =>
          let r := get_or_create_user db un.1 un.2
          ⟨Except.ok r.user.uuid, cache2, r.db, r.sessionPending,
            if r.committed then 1 else 0⟩

/-! ## Storage invariants (for the dedup claims) -/

/-- The coupling invariant of the blob store: Blob rows have pairwise
distinct hashes, storage objects have pairwise distinct names, and a hash
has a Blob row exactly when it has a stored object. -/
def StoreInv (db : DB) (st : Storage) : Prop :=
  (db.uploads.map Upload.hash).Nodup ∧
  (st.objects.map Prod.fst).Nodup ∧
  (∀ h, h ∈ db.uploads.map Upload.hash ↔ h ∈ st.objects.map Prod.fst)

/-! ## Concrete sample inputs used by witnesses and counterexamples -/

/-- A sample player row. -/
def user0 : User := ⟨1, "uuid-1", "alice"⟩

/-- A database holding only the sample player. -/
def db0 : DB := ⟨[user0], [], [], 1⟩

/-- An empty blob store. -/
def st0 : Storage := ⟨[]⟩

/-- A 64 by 64 PNG image with an empty pixel buffer. -/
def img64 : Img := ⟨"PNG", 64, 64, []⟩

/-- An upload decoding to `img64`. -/
def file64 : UploadFile := ⟨[], some img64⟩

/-- The database after `put_texture db0 st0 user0 file64 "skin" []`. -/
def db1 : DB := ⟨[user0], [⟨sha1Hex [], 1⟩], [⟨1, 1, "skin", none, []⟩], 2⟩

/-- The storage after `put_texture db0 st0 user0 file64 "skin" []`. -/
def st1 : Storage := ⟨[(sha1Hex [], [])]⟩

/-- The default public root URL (src/config.py:10). -/
def rootUrl0 : String := "http://127.0.0.1"

/-- A committed blob row for the profile samples. -/
def upA : Upload := ⟨"abc", 1⟩

/-- A visible history row referencing `upA`. -/
def texV : Texture := ⟨1, 1, "skin", some upA, []⟩

/-- A tombstone history row. -/
def texT : Texture := ⟨1, 1, "skin", none, []⟩

/-- A database whose only history row is visible. -/
def dbV : DB := ⟨[user0], [upA], [texV], 2⟩

/-- A database whose only history row is a tombstone. -/
def dbT : DB := ⟨[user0], [], [texT], 2⟩

/-! ## Shared helper lemmas -/

/-- A successful `gen_skin_hash` result is the SHA-1 hex of the decoded pixel
buffer. -/
theorem gen_skin_hash_ok {f : UploadFile} {img : Img} {s : String}
    (hdec : f.decoded = some img) (h : gen_skin_hash f = Except.ok s) :
    s = sha1Hex img.pixelBytes := by
  unfold gen_skin_hash at h
  rw [hdec] at h
  dsimp only at h
  by_cases h1 : img.format = "PNG"
  · rw [if_neg (not_not_intro h1)] at h
    by_cases h2 : ¬ (img.width = 2 * img.height ∨ img.width = img.height) ∨ img.width ∉ sizes
    · rw [if_pos h2] at h
      exact absurd h (by simp)
    · rw [if_neg h2] at h
      exact (Except.ok.inj h).symm
  · rw [if_pos h1] at h
    exact absurd h (by simp)

/-- A successful `gen_skin_hash` implies the upload decoded. -/
theorem gen_skin_hash_ok_decoded {f : UploadFile} {s : String}
    (h : gen_skin_hash f = Except.ok s) : ∃ img, f.decoded = some img := by
  unfold gen_skin_hash at h
  rcases hd : f.decoded with _ | img
  · rw [hd] at h; exact absurd h (by simp)
  · exact ⟨img, rfl⟩

/-- With no pending-verification entry for the name, the auth response step
fails with 403. -/
theorem authResponse_no_pending (cache : TokenCache) (db : DB) (name : String)
    (vt : Nat) (addr : String) (hj : Option (String × String))
    (h : cacheLookup cache name = none) :
    (authResponse false cache db name vt addr hj).result =
      Except.error ⟨403, "The user has not requested a token or it has expired"⟩ := by
  unfold authResponse
  rw [if_neg (by simp), h]

/-- Deleting a cache key makes it unresolvable. -/
theorem cacheLookup_cacheErase (c : TokenCache) (name : String) :
    cacheLookup (cacheErase c name) name = none := by
  unfold cacheLookup cacheErase
  rw [List.find?_eq_none.mpr]
  · rfl
  · intro x hx
    rcases List.mem_filter.mp hx with ⟨-, hx2⟩
    simpa using of_decide_eq_true hx2

/-! ## C9 — offline flag -/

/-- C9: the offline flag is true exactly when the OFFLINE environment
variable is set to a non-empty string; in particular the strings "false" and
"0" enable offline mode, while an unset or empty variable disables it. -/
theorem c9_offline_flag (env : Option String) :
    (config_OFFLINE env = true ↔ ∃ s, env = some s ∧ s ≠ "") ∧
    config_OFFLINE (some ("false")) = true ∧
    config_OFFLINE (some ("0")) = true ∧
    config_OFFLINE none = false ∧
    config_OFFLINE (some ("")) = false := by
  refine ⟨?_, by decide, by decide, rfl, by decide⟩
  cases env with
  | none => simp [config_OFFLINE]
  | some s =>
    by_cases h : s = "" <;> simp [config_OFFLINE, h]

/-- Witness for C9 at concrete inputs. -/
theorem c9_offline_flag_witness :
    config_OFFLINE (some ("false")) = true ∧ config_OFFLINE none = false :=
  ⟨(c9_offline_flag (some ("false"))).2.1, (c9_offline_flag none).2.2.2.1⟩

/-! ## C10 — valid token whose id resolves to no player -/

/-- C10: on a token with a valid signature and validity window whose payload
id resolves to no Player, the verify callback returns the falsy `none`, and
the protected request is rejected with status 401 by the auth error
handler. -/
theorem c10_unknown_player_unauthorized (id : Nat) (lookup : Nat → Option User)
    (handler : User → Except HttpAbort Rsp) (h : lookup id = none) :
    verify_auth_token (TokenDecode.ok id) lookup = Except.ok none ∧
    login_required (TokenDecode.ok id) lookup handler = Except.error auth_failed ∧
    auth_failed.status = 401 := by
  refine ⟨by simp [verify_auth_token, h], ?_, rfl⟩
  simp [login_required, verify_auth_token, h]

/-- Witness for C10 with a lookup that knows no player. -/
theorem c10_unknown_player_unauthorized_witness :
    verify_auth_token (TokenDecode.ok 5) (fun _ => none) = Except.ok none ∧
    login_required (TokenDecode.ok 5) (fun _ => none)
      (fun _ => Except.ok ("", 200)) = Except.error auth_failed ∧
    auth_failed.status = 401 :=
  c10_unknown_player_unauthorized 5 (fun _ => none) (fun _ => Except.ok ("", 200)) rfl

/-! ## C3 — missing form field on upload by reference -/

/-- C3 counterexample: an authenticated owner upload-by-reference request on
a non-blacklisted type whose form lacks the file field fails with status
404, not 400 as the claim states. -/
theorem c3_counterexample :
    texture_post db0 st0 user0 user0 ("skin") [("name", "x")] none =
      Except.error ⟨404, "Missing required form: \x27file\x27"⟩ ∧
    (404 : Nat) ≠ 400 :=
  ⟨rfl, by decide⟩

/-- C3 amended: a POST whose form data lacks the required file field fails
with status 404 (message "Missing required form: 'file'"), produced by the
`require_formdata` decorator, rather than 400. -/
theorem c3_missing_file_404 (db : DB) (st : Storage) (g u : User) (ty : String)
    (form : List (String × String)) (dl : Option UploadFile)
    (hbl : ty ∉ blacklist) (hu : u = g)
    (hform : ∀ kv ∈ form, kv.1 ≠ "file") :
    texture_post db st g u ty form dl =
      Except.error ⟨404, "Missing required form: \x27file\x27"⟩ := by
  have hd : dispatch_checks g u ty = none := by
    simp [dispatch_checks, hbl, hu]
  have hany : form.any (fun kv => decide (kv.1 = "file")) = false := by
    rw [List.any_eq_false]
    intro x hx
    simpa using hform x hx
  have hr : require_formdata (["file"]) form =
      some ⟨404, "Missing required form: \x27file\x27"⟩ := by
    unfold require_formdata
    rw [show (["file"] : List String).find?
        (fun d => ! form.any (fun kv => decide (kv.1 = d))) = some ("file") by
      simp [List.find?, hany]]
    decide
  simp [texture_post, hd, hr]

/-- Witness for the amended C3 at a concrete request. -/
theorem c3_missing_file_404_witness :
    texture_post db0 st0 user0 user0 ("skin") [("name", "x")] none =
      Except.error ⟨404, "Missing required form: \x27file\x27"⟩ :=
  c3_missing_file_404 db0 st0 user0 user0 ("skin") [("name", "x")] none
    (by decide) rfl (by decide)

/-! ## C2 — response of successful texture operations -/

/-- C2: the code diverges from the claim.  Each verb handler computes an
accepted value — `("", 202)` for the two uploads, `("\x7b\x7d", 202)` for
removal — but the overridden `dispatch_request` does not return the result
of `super().dispatch_request(user, skin_type)`, so the handler's response
value is discarded (`dispatch_request` yields `none`, Python `None`) and no
successful texture operation responds 202 with an empty body at the
endpoint. -/
theorem c2_response_discarded :
    (∀ db st g u ty form dl r db2 st2,
        texture_post db st g u ty form dl = Except.ok (r, db2, st2) →
        r = ("", 202) ∧
        dispatch_request (texture_post db st g u ty form dl) =
          Except.ok (none, db2, st2)) ∧
    (∀ db st g u ty form files r db2 st2,
        texture_put db st g u ty form files = Except.ok (r, db2, st2) →
        r = ("", 202) ∧
        dispatch_request (texture_put db st g u ty form files) =
          Except.ok (none, db2, st2)) ∧
    (∀ db g u ty, u = g → ty ∉ blacklist →
        ∃ db2, texture_delete db g u ty = Except.ok (("\x7b\x7d", 202), db2) ∧
          dispatch_request (texture_delete db g u ty) = Except.ok (none, db2)) := by
  refine ⟨?_, ?_, ?_⟩
  · intro db st g u ty form dl r db2 st2 h
    refine ⟨?_, by rw [h]; rfl⟩
    unfold texture_post at h
    split at h
    · exact absurd h (by simp)
    · split at h
      · exact absurd h (by simp)
      · split at h
        · exact absurd h (by simp)
        · rename_i file
          dsimp only at h
          rcases hp : put_texture db st u file ty
              (form.filter (fun kv => decide (kv.1 ≠ "file"))) with e | pr
          · rw [hp] at h
            exact absurd h (by simp)
          · rw [hp] at h
            simp only [Except.ok.injEq, Prod.mk.injEq] at h
            exact h.1.symm
  · intro db st g u ty form files r db2 st2 h
    refine ⟨?_, by rw [h]; rfl⟩
    unfold texture_put at h
    split at h
    · exact absurd h (by simp)
    · split at h
      · exact absurd h (by simp)
      · rename_i fs
        split at h
        · exact absurd h (by simp)
        · rcases hp : put_texture db st u fs.content ty form with e | pr
          · rw [hp] at h
            exact absurd h (by simp)
          · rw [hp] at h
            simp only [Except.ok.injEq, Prod.mk.injEq] at h
            exact h.1.symm
  · intro db g u ty hu hbl
    have h : texture_delete db g u ty = Except.ok (("\x7b\x7d", 202),
        ⟨db.users, db.uploads,
          db.textures ++ [⟨db.nextTextureId, u.id, ty, none, []⟩],
          db.nextTextureId + 1⟩) := by
      simp [texture_delete, dispatch_checks, hbl, hu]
    exact ⟨_, h, by rw [h]; rfl⟩

/-- Witness for C2: a concrete successful upload and removal, with the
verb-handler values and the discarded dispatch result. -/
theorem c2_response_discarded_witness :
    (("", 202) : Rsp) = ("", 202) ∧
    dispatch_request (texture_post db0 st0 user0 user0 ("skin")
        [("file", "http://example.com/x.png")] (some file64)) =
      Except.ok (none, db1, st1) ∧
    ∃ db2, texture_delete db0 user0 user0 ("skin") =
        Except.ok (("\x7b\x7d", 202), db2) ∧
      dispatch_request (texture_delete db0 user0 user0 ("skin")) =
        Except.ok (none, db2) := by
  have h1 := c2_response_discarded.1 db0 st0 user0 user0 ("skin")
    [("file", "http://example.com/x.png")] (some file64) ("", 202) db1 st1 rfl
  exact ⟨h1.1, h1.2, c2_response_discarded.2.2 db0 user0 user0 ("skin") rfl (by decide)⟩

/-! ## C7 — pending verification entry consumed -/

/-- C7: whenever a pending-verification entry exists for the submitted name,
the auth response step deletes it whatever the outcome of the token and
address comparisons, so an immediately repeated call for the same name fails
with 403 (no pending request). -/
theorem c7_pending_entry_consumed (cache : TokenCache) (db : DB) (name : String)
    (p : Nat × String) (vt : Nat) (addr : String) (hj : Option (String × String))
    (vt2 : Nat) (addr2 : String) (hj2 : Option (String × String))
    (h : cacheLookup cache name = some p) :
    cacheLookup (authResponse false cache db name vt addr hj).cache name = none ∧
    (authResponse false (authResponse false cache db name vt addr hj).cache
        (authResponse false cache db name vt addr hj).db name vt2 addr2 hj2).result =
      Except.error ⟨403, "The user has not requested a token or it has expired"⟩ := by
  have hc : (authResponse false cache db name vt addr hj).cache = cacheErase cache name := by
    unfold authResponse
    rw [if_neg (by simp), h]
    dsimp only
    split
    · rfl
    · split
      · rfl
      · cases hj with
        | none => rfl
        | some q => rfl
  have h1 : cacheLookup (authResponse false cache db name vt addr hj).cache name = none := by
    rw [hc]; exact cacheLookup_cacheErase cache name
  exact ⟨h1, authResponse_no_pending _ _ _ _ _ _ h1⟩

/-- Witness for C7 at a concrete cache and request. -/
theorem c7_pending_entry_consumed_witness :
    cacheLookup (authResponse false [("bob", (7, "1.2.3.4"))] db0 ("bob") 9
      ("1.2.3.4") none).cache ("bob") = none ∧
    (authResponse false
        (authResponse false [("bob", (7, "1.2.3.4"))] db0 ("bob") 9 ("1.2.3.4") none).cache
        (authResponse false [("bob", (7, "1.2.3.4"))] db0 ("bob") 9 ("1.2.3.4") none).db
        ("bob") 9 ("1.2.3.4") none).result =
      Except.error ⟨403, "The user has not requested a token or it has expired"⟩ :=
  c7_pending_entry_consumed [("bob", (7, "1.2.3.4"))] db0 ("bob") (7, "1.2.3.4")
    9 ("1.2.3.4") none 9 ("1.2.3.4") none rfl

/-! ## C8 — login response for an unseen account identifier -/

/-- C8: the code diverges from the claim.  A successful auth response for a
previously unseen account identifier returns 200 with the new player only
added to the session: `get_or_create_user` calls `db.session.add` on the
fresh-uuid branch and `db.session.commit()` only on the existing-uuid
branch, so zero commits happen during the request and the committed
database is unchanged when the response is returned. -/
theorem c8_new_player_uncommitted (cache : TokenCache) (db : DB) (name : String)
    (vt : Nat) (addr : String) (uuid uname : String)
    (hc : cacheLookup cache name = some (vt, addr))
    (hfresh : ∀ u ∈ db.users, u.uuid ≠ uuid) :
    (authResponse false cache db name vt addr (some (uuid, uname))).result =
      Except.ok uuid ∧
    (authResponse false cache db name vt addr (some (uuid, uname))).commits = 0 ∧
    (authResponse false cache db name vt addr (some (uuid, uname))).db = db ∧
    (authResponse false cache db name vt addr (some (uuid, uname))).sessionPending =
      [⟨0, uuid, uname⟩] := by
  have hfind : db.users.find? (fun u => decide (u.uuid = uuid)) = none := by
    rw [List.find?_eq_none]
    intro x hx
    simpa using hfresh x hx
  unfold authResponse
  rw [if_neg (by simp), hc]
  simp [get_or_create_user, hfind]

/-- Witness for C8: a fresh uuid login at a concrete cache and database. -/
theorem c8_new_player_uncommitted_witness :
    (authResponse false [("bob", (7, "1.2.3.4"))] db0 ("bob") 7 ("1.2.3.4")
        (some ("u-9", "bob"))).result = Except.ok ("u-9") ∧
    (authResponse false [("bob", (7, "1.2.3.4"))] db0 ("bob") 7 ("1.2.3.4")
        (some ("u-9", "bob"))).commits = 0 ∧
    (authResponse false [("bob", (7, "1.2.3.4"))] db0 ("bob") 7 ("1.2.3.4")
        (some ("u-9", "bob"))).db = db0 ∧
    (authResponse false [("bob", (7, "1.2.3.4"))] db0 ("bob") 7 ("1.2.3.4")
        (some ("u-9", "bob"))).sessionPending = [⟨0, "u-9", "bob"⟩] :=
  c8_new_player_uncommitted [("bob", (7, "1.2.3.4"))] db0 ("bob") 7 ("1.2.3.4")
    ("u-9") ("bob") rfl (by decide)

/-! ## C1 — first upload of new content records a tombstone-shaped row -/

/-- C1: the code diverges from the claim.  When no Blob row with the computed
hash exists, `put_texture` writes the bytes and adds the Blob row, but binds
the local `upload` to the `None` returned by `db.session.add`, so the new
Texture history row has an absent blob reference instead of referencing the
resolved Blob. -/
theorem c1_first_upload_tombstone (db : DB) (st : Storage) (user : User)
    (file : UploadFile) (img : Img) (skin_type : String)
    (metadata : List (String × String)) (db2 : DB) (st2 : Storage)
    (hdec : file.decoded = some img)
    (hfresh : ∀ u ∈ db.uploads, u.hash ≠ sha1Hex img.pixelBytes)
    (hok : put_texture db st user file skin_type metadata = Except.ok (db2, st2)) :
    db2.uploads = db.uploads ++ [⟨sha1Hex img.pixelBytes, user.id⟩] ∧
    (sha1Hex img.pixelBytes, file.raw) ∈ st2.objects ∧
    ∃ tex, db2.textures = db.textures ++ [tex] ∧ tex.upload = none := by
  unfold put_texture at hok
  rcases hg : gen_skin_hash file with e | s
  · rw [hg] at hok; exact absurd hok (by simp)
  · have hs : s = sha1Hex img.pixelBytes := gen_skin_hash_ok hdec hg
    subst hs
    have hfind : db.uploads.find? (fun u => decide (u.hash = sha1Hex img.pixelBytes)) = none := by
      rw [List.find?_eq_none]
      intro x hx
      simpa using hfresh x hx
    rw [hg] at hok
    dsimp only at hok
    rw [hfind] at hok
    dsimp only at hok
    simp only [Except.ok.injEq, Prod.mk.injEq] at hok
    obtain ⟨hdb, hst⟩ := hok
    subst hdb hst
    refine ⟨rfl, ?_, ⟨_, rfl, rfl⟩⟩
    exact List.mem_append_right _ (by simp [open_fs_write])

/-- Witness for C1: the very first upload into an empty store. -/
theorem c1_first_upload_tombstone_witness :
    db1.uploads = db0.uploads ++ [⟨sha1Hex ([]), 1⟩] ∧
    (sha1Hex ([]), ([] : List Nat)) ∈ st1.objects ∧
    ∃ tex, db1.textures = db0.textures ++ [tex] ∧ tex.upload = none :=
  c1_first_upload_tombstone db0 st0 user0 file64 img64 ("skin") [] db1 st1
    rfl (by simp [db0]) rfl

/-! ## C4 — image validation -/

/-- C4: validation succeeds exactly when the bytes decode as a PNG whose
width equals the height or twice the height and lies in
\x7b64, 128, 256, 512, 1024\x7d; with the concrete examples of the claim. -/
theorem c4_validation_iff :
    (∀ f : UploadFile,
      (∃ s, gen_skin_hash f = Except.ok s) ↔
        ∃ img, f.decoded = some img ∧ img.format = "PNG" ∧
          (img.width = img.height ∨ img.width = 2 * img.height) ∧ img.width ∈ sizes) ∧
    (∃ s, gen_skin_hash ⟨[], some ⟨"PNG", 64, 64, []⟩⟩ = Except.ok s) ∧
    (∃ s, gen_skin_hash ⟨[], some ⟨"PNG", 64, 32, []⟩⟩ = Except.ok s) ∧
    (∀ s, gen_skin_hash ⟨[], some ⟨"PNG", 100, 100, []⟩⟩ ≠ Except.ok s) ∧
    (∀ s, gen_skin_hash ⟨[], some ⟨"PNG", 70, 70, []⟩⟩ ≠ Except.ok s) ∧
    (∀ s, gen_skin_hash ⟨[], some ⟨"JPEG", 64, 64, []⟩⟩ ≠ Except.ok s) := by
  refine ⟨?_, ⟨sha1Hex [], rfl⟩, ⟨sha1Hex [], rfl⟩,
    fun s h => by simp [gen_skin_hash, sizes] at h,
    fun s h => by simp [gen_skin_hash, sizes] at h,
    fun s h => by simp [gen_skin_hash, sizes] at h⟩
  intro f
  constructor
  · rintro ⟨s, hs⟩
    obtain ⟨img, hd⟩ := gen_skin_hash_ok_decoded hs
    refine ⟨img, hd, ?_⟩
    unfold gen_skin_hash at hs
    rw [hd] at hs
    dsimp only at hs
    by_cases h1 : img.format = "PNG"
    · rw [if_neg (not_not_intro h1)] at hs
      by_cases h2 : ¬ (img.width = 2 * img.height ∨ img.width = img.height) ∨
          img.width ∉ sizes
      · rw [if_pos h2] at hs
        exact absurd hs (by simp)
      · rcases not_or.mp h2 with ⟨hAB, hC⟩
        exact ⟨h1, (not_not.mp hAB).symm, not_not.mp hC⟩
    · rw [if_pos h1] at hs
      exact absurd hs (by simp)
  · rintro ⟨img, hd, hfmt, hdim, hsz⟩
    refine ⟨sha1Hex img.pixelBytes, ?_⟩
    unfold gen_skin_hash
    rw [hd]
    dsimp only
    rw [if_neg (not_not_intro hfmt),
      if_neg (not_or.mpr ⟨not_not_intro hdim.symm, not_not_intro hsz⟩)]

/-- Witness for C4: the 64 by 64 PNG sample passes validation. -/
theorem c4_validation_iff_witness :
    ∃ s, gen_skin_hash file64 = Except.ok s :=
  (c4_validation_iff.1 file64).mpr ⟨img64, rfl, rfl, Or.inl rfl, by decide⟩

/-! ## C5 — pixel hashing and deduplication -/

/-- Big-endian byte rendering has the requested length. -/
theorem length_bytesBE (n v : Nat) : (bytesBE n v).length = n := by
  simp [bytesBE]

/-- The SHA-1 digest always has twenty bytes. -/
theorem length_sha1Digest (msg : List Nat) : (sha1Digest msg).length = 20 := by
  simp [sha1Digest, length_bytesBE]

/-- Every digest byte is below 256. -/
theorem bytesBE_lt (n v : Nat) : ∀ b ∈ bytesBE n v, b < 256 := by
  intro b hb
  rcases List.mem_map.mp hb with ⟨i, -, rfl⟩
  exact Nat.mod_lt _ (by omega)

/-- The hex rendering of a byte list has twice its length. -/
theorem length_hexFold (l : List Nat) :
    (l.foldr (fun b acc => byteHexChars b ++ acc) []).length = 2 * l.length := by
  induction l with
  | nil => rfl
  | cons b bs ih =>
    have h2 : (byteHexChars b).length = 2 := rfl
    show (byteHexChars b ++ bs.foldr (fun b acc => byteHexChars b ++ acc) []).length = _
    rw [List.length_append, ih, h2, List.length_cons]
    omega

/-- Every character of the hex rendering comes from one byte. -/
theorem mem_hexFold {c : Char} {l : List Nat}
    (h : c ∈ l.foldr (fun b acc => byteHexChars b ++ acc) []) :
    ∃ b ∈ l, c ∈ byteHexChars b := by
  induction l with
  | nil => simp at h
  | cons b bs ih =>
    rcases List.mem_append.mp h with h1 | h2
    · exact ⟨b, by simp, h1⟩
    · rcases ih h2 with ⟨b2, hb2, hc⟩
      exact ⟨b2, by simp [hb2], hc⟩

/-- Nibble characters are lowercase hex digits. -/
theorem nibbleChar_mem (n : Nat) : nibbleChar n ∈ hexChars := by
  unfold nibbleChar
  by_cases h : n < 16
  · interval_cases n <;> decide
  · rw [List.getD_eq_default]
    · decide
    · have hlen : hexChars.length = 16 := rfl
      omega

/-- Both characters of a byte rendering are lowercase hex digits. -/
theorem byteHexChars_mem {c : Char} {b : Nat} (h : c ∈ byteHexChars b) : c ∈ hexChars := by
  rcases List.mem_cons.mp h with rfl | h2
  · exact nibbleChar_mem _
  · rcases List.mem_cons.mp h2 with rfl | h3
    · exact nibbleChar_mem _
    · simp at h3

/-- Invariant preservation and post-state counts of `put_texture`: the
coupling invariant survives, and the hash of the decoded pixels ends up with
exactly one Blob row and exactly one storage object. -/
theorem put_texture_inv (db : DB) (st : Storage) (user : User) (file : UploadFile)
    (ty : String) (md : List (String × String)) (db2 : DB) (st2 : Storage)
    (hinv : StoreInv db st)
    (hok : put_texture db st user file ty md = Except.ok (db2, st2)) :
    StoreInv db2 st2 ∧
    ∀ img, file.decoded = some img →
      ((db2.uploads.map Upload.hash).count (sha1Hex img.pixelBytes) = 1 ∧
       (st2.objects.map Prod.fst).count (sha1Hex img.pixelBytes) = 1) := by
  obtain ⟨hnd1, hnd2, hcouple⟩ := hinv
  unfold put_texture at hok
  rcases hg : gen_skin_hash file with e | s
  · rw [hg] at hok
    exact absurd hok (by simp)
  rw [hg] at hok
  dsimp only at hok
  rcases hf : db.uploads.find? (fun u => decide (u.hash = s)) with _ | found
  · rw [hf] at hok
    dsimp only at hok
    simp only [Except.ok.injEq, Prod.mk.injEq] at hok
    obtain ⟨hdb, hst⟩ := hok
    subst hdb
    subst hst
    have hnotmem : s ∉ db.uploads.map Upload.hash := by
      intro hsmem
      rcases List.mem_map.mp hsmem with ⟨u, hu, hh⟩
      have h3 := List.find?_eq_none.mp hf u hu
      simp [hh] at h3
    have hnotmem2 : s ∉ (st.objects.filter (fun o => decide (o.1 ≠ s))).map Prod.fst := by
      intro hsmem
      rcases List.mem_map.mp hsmem with ⟨o, ho, hh⟩
      rcases List.mem_filter.mp ho with ⟨-, ho2⟩
      exact absurd hh (of_decide_eq_true ho2)
    have hfiltermem : ∀ h2, h2 ≠ s →
        (h2 ∈ (st.objects.filter (fun o => decide (o.1 ≠ s))).map Prod.fst ↔
          h2 ∈ st.objects.map Prod.fst) := by
      intro h2 hne
      constructor
      · intro hm
        rcases List.mem_map.mp hm with ⟨o, ho, rfl⟩
        exact List.mem_map.mpr ⟨o, (List.mem_filter.mp ho).1, rfl⟩
      · intro hm
        rcases List.mem_map.mp hm with ⟨o, ho, rfl⟩
        exact List.mem_map.mpr ⟨o, List.mem_filter.mpr ⟨ho, decide_eq_true hne⟩, rfl⟩
    refine ⟨⟨?_, ?_, ?_⟩, ?_⟩
    · rw [List.map_append]
      exact hnd1.append (by simp) (List.disjoint_singleton.mpr hnotmem)
    · show ((st.objects.filter (fun o => decide (o.1 ≠ s)) ++ [(s, file.raw)]).map Prod.fst).Nodup
      rw [List.map_append]
      refine List.Nodup.append ?_ (by simp) (List.disjoint_singleton.mpr hnotmem2)
      exact ((List.filter_sublist _).map Prod.fst).nodup hnd2
    · intro h2
      show h2 ∈ (db.uploads ++ [(⟨s, user.id⟩ : Upload)]).map Upload.hash ↔
        h2 ∈ (st.objects.filter (fun o => decide (o.1 ≠ s)) ++ [(s, file.raw)]).map Prod.fst
      rw [List.map_append, List.map_append]
      by_cases he : h2 = s
      · subst he
        simp
      · rw [List.mem_append, List.mem_append]
        constructor
        · rintro (hl | hl)
          · exact Or.inl ((hfiltermem h2 he).mpr ((hcouple h2).mp hl))
          · simp at hl
            exact absurd hl he
        · rintro (hr | hr)
          · exact Or.inl ((hcouple h2).mpr ((hfiltermem h2 he).mp hr))
          · simp at hr
            exact absurd hr he
    · intro img hdecd
      have hs2 : s = sha1Hex img.pixelBytes := gen_skin_hash_ok hdecd hg
      rw [← hs2]
      constructor
      · show ((db.uploads ++ [(⟨s, user.id⟩ : Upload)]).map Upload.hash).count s = 1
        rw [List.map_append, List.count_append, List.count_eq_zero.mpr hnotmem]
        simp
      · show ((st.objects.filter (fun o => decide (o.1 ≠ s)) ++
            [(s, file.raw)]).map Prod.fst).count s = 1
        rw [List.map_append, List.count_append, List.count_eq_zero.mpr hnotmem2]
        simp
  · rw [hf] at hok
    dsimp only at hok
    simp only [Except.ok.injEq, Prod.mk.injEq] at hok
    obtain ⟨hdb, hst⟩ := hok
    subst hdb
    subst hst
    have h5 := List.find?_some hf
    have hfh : found.hash = s := of_decide_eq_true h5
    have hfmem : found ∈ db.uploads := List.mem_of_find?_eq_some hf
    refine ⟨⟨hnd1, hnd2, hcouple⟩, ?_⟩
    intro img hdecd
    have hs2 : s = sha1Hex img.pixelBytes := gen_skin_hash_ok hdecd hg
    subst hs2
    have hmem1 : sha1Hex img.pixelBytes ∈ db.uploads.map Upload.hash :=
      List.mem_map.mpr ⟨found, hfmem, hfh⟩
    exact ⟨List.count_eq_one_of_mem hnd1 hmem1,
      List.count_eq_one_of_mem hnd2 ((hcouple _).mp hmem1)⟩

/-- C5: the content hash of an upload is the lowercase hex SHA-1 digest of
the decoded pixel buffer; equal pixel content gives equal hashes; and under
the store invariant every successful upload leaves exactly one Blob row and
exactly one storage object for that hash. -/
theorem c5_pixel_hash_dedup :
    (∀ (f : UploadFile) (img : Img) (s : String), f.decoded = some img →
        gen_skin_hash f = Except.ok s → s = sha1Hex img.pixelBytes) ∧
    (∀ msg, (sha1Hex msg).length = 40 ∧ ∀ c ∈ (sha1Hex msg).data, c ∈ hexChars) ∧
    (∀ (f1 f2 : UploadFile) (i1 i2 : Img) (s1 s2 : String),
        f1.decoded = some i1 → f2.decoded = some i2 →
        i1.pixelBytes = i2.pixelBytes →
        gen_skin_hash f1 = Except.ok s1 → gen_skin_hash f2 = Except.ok s2 →
        s1 = s2) ∧
    (∀ db st user f ty md db2 st2, StoreInv db st →
        put_texture db st user f ty md = Except.ok (db2, st2) →
        StoreInv db2 st2 ∧
        ∀ img, f.decoded = some img →
          ((db2.uploads.map Upload.hash).count (sha1Hex img.pixelBytes) = 1 ∧
           (st2.objects.map Prod.fst).count (sha1Hex img.pixelBytes) = 1)) := by
  refine ⟨fun f img s hd h => gen_skin_hash_ok hd h, ?_, ?_, put_texture_inv⟩
  · intro msg
    constructor
    · show ((sha1Digest msg).foldr (fun b acc => byteHexChars b ++ acc) []).length = 40
      rw [length_hexFold, length_sha1Digest]
    · intro c hc
      rcases mem_hexFold hc with ⟨b, -, hb⟩
      exact byteHexChars_mem hb
  · intro f1 f2 i1 i2 s1 s2 hd1 hd2 hpix h1 h2
    rw [gen_skin_hash_ok hd1 h1, gen_skin_hash_ok hd2 h2, hpix]

/-- Witness for C5: the first upload into an empty store satisfies the
invariant and leaves one Blob row and one object for the pixel hash. -/
theorem c5_pixel_hash_dedup_witness :
    sha1Hex img64.pixelBytes = sha1Hex img64.pixelBytes ∧
    (StoreInv db1 st1 ∧
      ((db1.uploads.map Upload.hash).count (sha1Hex img64.pixelBytes) = 1 ∧
       (st1.objects.map Prod.fst).count (sha1Hex img64.pixelBytes) = 1)) := by
  have h1 := c5_pixel_hash_dedup.1 file64 img64 (sha1Hex img64.pixelBytes) rfl rfl
  have h4 := c5_pixel_hash_dedup.2.2.2 db0 st0 user0 file64 ("skin") [] db1 st1
    ⟨by simp [db0], by simp [st0], by simp [db0, st0]⟩ rfl
  exact ⟨h1, h4.1, h4.2 img64 rfl⟩

/-! ## C6 — helper lemmas on the active-texture query -/

/-- Membership in descending insertion. -/
theorem mem_insertDescById {x t : Texture} {l : List Texture} :
    x ∈ insertDescById t l ↔ x = t ∨ x ∈ l := by
  induction l with
  | nil => simp [insertDescById]
  | cons u us ih =>
    simp only [insertDescById]
    split
    · simp only [List.mem_cons]
    · simp only [List.mem_cons, ih]
      tauto

/-- Descending insertion preserves the descending-id pairwise order. -/
theorem pairwise_insertDescById {t : Texture} {l : List Texture}
    (h : l.Pairwise (fun a b => b.id ≤ a.id)) :
    (insertDescById t l).Pairwise (fun a b => b.id ≤ a.id) := by
  induction l with
  | nil => simp [insertDescById]
  | cons u us ih =>
    rcases List.pairwise_cons.mp h with ⟨hu, hus⟩
    simp only [insertDescById]
    split
    · rename_i hle
      refine List.pairwise_cons.mpr ⟨?_, h⟩
      intro y hy
      rcases List.mem_cons.mp hy with rfl | hy2
      · exact hle
      · exact le_trans (hu y hy2) hle
    · rename_i hgt
      refine List.pairwise_cons.mpr ⟨?_, ih hus⟩
      intro y hy
      rcases mem_insertDescById.mp hy with rfl | hy2
      · omega
      · exact hu y hy2

/-- Membership in the descending sort. -/
theorem mem_sortDescById {x : Texture} {l : List Texture} :
    x ∈ sortDescById l ↔ x ∈ l := by
  induction l with
  | nil => simp [sortDescById]
  | cons t ts ih =>
    simp only [sortDescById]
    rw [mem_insertDescById, ih, List.mem_cons]

/-- The descending sort is pairwise descending in id. -/
theorem pairwise_sortDescById (l : List Texture) :
    (sortDescById l).Pairwise (fun a b => b.id ≤ a.id) := by
  induction l with
  | nil => simp [sortDescById]
  | cons t ts ih =>
    exact pairwise_insertDescById ih

/-- A row surviving the distinct-by-type pass is in the list and its type is
not among the already seen types. -/
theorem mem_distinctByTypeAux {x : Texture} :
    ∀ (seen : List String) (l : List Texture),
      x ∈ distinctByTypeAux seen l → x ∈ l ∧ x.tex_type ∉ seen := by
  intro seen l
  induction l generalizing seen with
  | nil =>
    intro h
    simp [distinctByTypeAux] at h
  | cons t ts ih =>
    intro h
    simp only [distinctByTypeAux] at h
    split at h
    · rcases ih seen h with ⟨h1, h2⟩
      exact ⟨List.mem_cons_of_mem _ h1, h2⟩
    · rename_i hnot
      rcases List.mem_cons.mp h with rfl | h2
      · exact ⟨List.mem_cons_self _ _, hnot⟩
      · rcases ih _ h2 with ⟨h1, h3⟩
        exact ⟨List.mem_cons_of_mem _ h1, fun hx => h3 (List.mem_cons_of_mem _ hx)⟩

/-- Every unseen type present in the list is represented after the
distinct-by-type pass. -/
theorem distinctByTypeAux_exists {t1 : Texture} :
    ∀ (seen : List String) (l : List Texture), t1 ∈ l → t1.tex_type ∉ seen →
      ∃ x, x ∈ distinctByTypeAux seen l ∧ x.tex_type = t1.tex_type := by
  intro seen l
  induction l generalizing seen with
  | nil =>
    intro h
    simp at h
  | cons t ts ih =>
    intro h hn
    simp only [distinctByTypeAux]
    split
    · rename_i hmem
      rcases List.mem_cons.mp h with rfl | h2
      · exact absurd hmem hn
      · exact ih seen h2 hn
    · rename_i hmem
      by_cases hty : t1.tex_type = t.tex_type
      · exact ⟨t, List.mem_cons_self _ _, hty.symm⟩
      · rcases List.mem_cons.mp h with rfl | h2
        · exact absurd rfl hty
        · have hn2 : t1.tex_type ∉ t.tex_type :: seen := by
            intro hc
            rcases List.mem_cons.mp hc with hc1 | hc2
            · exact hty hc1
            · exact hn hc2
          rcases ih (t.tex_type :: seen) h2 hn2 with ⟨x, hx1, hx2⟩
          exact ⟨x, List.mem_cons_of_mem _ hx1, hx2⟩

/-- On a descending-sorted list, a survivor of the distinct-by-type pass has
the maximal id among the rows of its type. -/
theorem distinctByTypeAux_max {x : Texture} :
    ∀ (seen : List String) (l : List Texture),
      l.Pairwise (fun a b => b.id ≤ a.id) → x ∈ distinctByTypeAux seen l →
      ∀ t1 ∈ l, t1.tex_type = x.tex_type → t1.id ≤ x.id := by
  intro seen l
  induction l generalizing seen with
  | nil =>
    intro _ hx
    simp [distinctByTypeAux] at hx
  | cons t ts ih =>
    intro hp hx t1 ht1 hty
    rcases List.pairwise_cons.mp hp with ⟨hhead, htail⟩
    simp only [distinctByTypeAux] at hx
    split at hx
    · rename_i hseen
      rcases List.mem_cons.mp ht1 with rfl | h2
      · have h3 := (mem_distinctByTypeAux seen ts hx).2
        exact absurd (hty ▸ hseen) h3
      · exact ih seen htail hx t1 h2 hty
    · rename_i hseen
      rcases List.mem_cons.mp hx with rfl | hx2
      · rcases List.mem_cons.mp ht1 with rfl | h2
        · exact le_refl _
        · exact hhead t1 h2
      · have hxne : x.tex_type ≠ t.tex_type := by
          have h3 := (mem_distinctByTypeAux _ _ hx2).2
          intro he
          exact h3 (he ▸ List.mem_cons_self _ _)
        rcases List.mem_cons.mp ht1 with rfl | h2
        · exact absurd hty.symm hxne
        · exact ih (t.tex_type :: seen) htail hx2 t1 h2 hty

/-- The distinct-by-type pass keeps at most one row per type. -/
theorem distinctByTypeAux_unique {x y : Texture} :
    ∀ (seen : List String) (l : List Texture),
      x ∈ distinctByTypeAux seen l → y ∈ distinctByTypeAux seen l →
      x.tex_type = y.tex_type → x = y := by
  intro seen l
  induction l generalizing seen with
  | nil =>
    intro hx
    simp [distinctByTypeAux] at hx
  | cons t ts ih =>
    intro hx hy hxy
    simp only [distinctByTypeAux] at hx hy
    by_cases hc : t.tex_type ∈ seen
    · rw [if_pos hc] at hx hy
      exact ih seen hx hy hxy
    · rw [if_neg hc] at hx hy
      rcases List.mem_cons.mp hx with rfl | hx2
      · rcases List.mem_cons.mp hy with rfl | hy2
        · rfl
        · have h3 := (mem_distinctByTypeAux _ _ hy2).2
          exact absurd (by rw [← hxy]; exact List.mem_cons_self _ _) h3
      · rcases List.mem_cons.mp hy with rfl | hy2
        · have h3 := (mem_distinctByTypeAux _ _ hx2).2
          exact absurd (by rw [hxy]; exact List.mem_cons_self _ _) h3
        · exact ih (t.tex_type :: seen) hx2 hy2 hxy

/-- Every row of the active query belongs to the player's history and has
maximal id among that player's rows of the same type. -/
theorem activeQuery_spec {db : DB} {user : User} {x : Texture}
    (hx : x ∈ activeQuery db user) :
    x ∈ db.textures ∧ x.userId = user.id ∧
    ∀ t1 ∈ db.textures, t1.userId = user.id → t1.tex_type = x.tex_type →
      t1.id ≤ x.id := by
  have hx2 : x ∈ distinctByTypeAux []
      (sortDescById (db.textures.filter (fun a => decide (a.userId = user.id)))) := hx
  have h1 := mem_distinctByTypeAux _ _ hx2
  have h2 : x ∈ db.textures.filter (fun a => decide (a.userId = user.id)) :=
    mem_sortDescById.mp h1.1
  rcases List.mem_filter.mp h2 with ⟨hmem, hdec⟩
  refine ⟨hmem, of_decide_eq_true hdec, ?_⟩
  intro t1 ht1 hu1 hty
  have ht1f : t1 ∈ sortDescById (db.textures.filter (fun a => decide (a.userId = user.id))) :=
    mem_sortDescById.mpr (List.mem_filter.mpr ⟨ht1, decide_eq_true hu1⟩)
  exact distinctByTypeAux_max [] _ (pairwise_sortDescById _) hx2 t1 ht1f hty

/-- The strictly most recent row of a (player, type) pair survives the
active query. -/
theorem activeQuery_mem {db : DB} {user : User} {t : Texture}
    (hmem : t ∈ db.textures) (huser : t.userId = user.id)
    (hmax : ∀ t1 ∈ db.textures, t1.userId = user.id → t1.tex_type = t.tex_type →
      t1 = t ∨ t1.id < t.id) :
    t ∈ activeQuery db user := by
  have htf : t ∈ sortDescById (db.textures.filter (fun a => decide (a.userId = user.id))) :=
    mem_sortDescById.mpr (List.mem_filter.mpr ⟨hmem, decide_eq_true huser⟩)
  rcases distinctByTypeAux_exists [] _ htf (by simp) with ⟨x, hx, hxty⟩
  have hxa : x ∈ activeQuery db user := hx
  have hspec := activeQuery_spec hxa
  rcases hmax x hspec.1 hspec.2.1 hxty with rfl | hlt
  · exact hxa
  · have hle := hspec.2.2 t hmem huser hxty.symm
    omega

/-- A list finds the unique element satisfying the predicate. -/
theorem find?_eq_some_of_unique {α : Type} (p : α → Bool) (l : List α) (e : α) :
    e ∈ l → p e = true → (∀ x ∈ l, p x = true → x = e) → l.find? p = some e := by
  induction l with
  | nil =>
    intro he
    simp at he
  | cons a as ih =>
    intro he hp hu
    rcases List.mem_cons.mp he with rfl | h2
    · rw [List.find?_cons_of_pos _ hp]
    · by_cases hpa : p a = true
      · have ha : a = e := hu a (List.mem_cons_self _ _) hpa
        subst ha
        rw [List.find?_cons_of_pos _ hpa]
      · rw [List.find?_cons_of_neg _ (by simpa using hpa)]
        exact ih h2 hp (fun x hx hpx => hu x (List.mem_cons_of_mem _ hx) hpx)

/-- Python dict lookup misses when no pair has the key. -/
theorem dictLookup_eq_none {l : List (String × TexEntry)} {k : String}
    (h : ∀ e ∈ l, e.1 ≠ k) : dictLookup l k = none := by
  unfold dictLookup
  rw [List.find?_eq_none.mpr]
  · rfl
  · intro x hx
    simpa using h x (List.mem_reverse.mp hx)

/-- Python dict lookup of a key held by exactly one pair yields its value. -/
theorem dictLookup_eq_some {l : List (String × TexEntry)} {k : String}
    {e : String × TexEntry} (he : e ∈ l) (hk : e.1 = k)
    (hu : ∀ x ∈ l, x.1 = k → x = e) : dictLookup l k = some e.2 := by
  unfold dictLookup
  rw [find?_eq_some_of_unique _ _ e (List.mem_reverse.mpr he) (decide_eq_true hk)
    (fun x hx hpx => hu x (List.mem_reverse.mp hx) (of_decide_eq_true hpx))]
  rfl

/-- A successful profile response carries the textures map of the active
query. -/
theorem user_get_ok {rootUrl : String} {db : DB} {user : User} {r : ProfileRsp}
    (h : user_get rootUrl db user = Except.ok r) :
    r.textures = textures_json rootUrl (activeQuery db user) := by
  unfold user_get at h
  by_cases he : (textures_json rootUrl (activeQuery db user)).isEmpty
  · rw [if_pos he] at h
    exact absurd h (by simp)
  · rw [if_neg he] at h
    rw [← Except.ok.inj h]

/-- C6: for a texture type with history, the profile's textures map carries
the entry derived from the most recent (highest id) history row of that
(player, type) pair, omits the type when that row is a tombstone, and the
whole request fails 404 when every most-recent row is a tombstone. -/
theorem c6_profile_active_textures (rootUrl : String) (db : DB) (user : User)
    (ty : String) (t : Texture)
    (hmem : t ∈ db.textures) (huser : t.userId = user.id) (htype : t.tex_type = ty)
    (hmax : ∀ t1 ∈ db.textures, t1.userId = user.id → t1.tex_type = ty →
      t1 = t ∨ t1.id < t.id)
    (hinj : ∀ t1 ∈ db.textures, t1.userId = user.id →
      t1.tex_type.toUpper = ty.toUpper → t1.tex_type = ty) :
    (∀ up, t.upload = some up → ∀ r, user_get rootUrl db user = Except.ok r →
        dictLookup r.textures ty.toUpper =
          some ⟨rootUrl ++ "/textures/" ++ up.hash, t.meta⟩) ∧
    (t.upload = none → ∀ r, user_get rootUrl db user = Except.ok r →
        dictLookup r.textures ty.toUpper = none) ∧
    ((∀ x, x ∈ db.textures → x.userId = user.id →
        (∀ t1 ∈ db.textures, t1.userId = user.id → t1.tex_type = x.tex_type →
          t1.id ≤ x.id) →
        x.upload = none) →
      user_get rootUrl db user = Except.error ⟨404, "Skins not found"⟩) := by
  have hactive : t ∈ activeQuery db user :=
    activeQuery_mem hmem huser (fun t1 h1 h2 h3 => hmax t1 h1 h2 (htype ▸ h3))
  have huniq : ∀ y ∈ activeQuery db user, y.tex_type = ty → y = t := by
    intro y hy hyty
    exact distinctByTypeAux_unique [] _ hy hactive (by rw [hyty, htype])
  refine ⟨?_, ?_, ?_⟩
  · intro up hup r hr
    rw [user_get_ok hr]
    apply dictLookup_eq_some
      (e := (ty.toUpper, ⟨rootUrl ++ "/textures/" ++ up.hash, t.meta⟩))
    · exact List.mem_filterMap.mpr ⟨t, hactive, by simp [textureEntry, hup, htype]⟩
    · rfl
    · intro x hx hx1
      rcases List.mem_filterMap.mp hx with ⟨y, hy, hye⟩
      unfold textureEntry at hye
      rcases hyup : y.upload with _ | uy
      · rw [hyup] at hye
        exact absurd hye (by simp)
      · rw [hyup] at hye
        have hx2 := Option.some.inj hye
        have hkey : y.tex_type.toUpper = ty.toUpper := by
          rw [← hx2] at hx1
          exact hx1
        have hspec := activeQuery_spec hy
        have hyty : y.tex_type = ty := hinj y hspec.1 hspec.2.1 hkey
        have hyt : y = t := huniq y hy hyty
        subst hyt
        rw [hup] at hyup
        rw [← hx2, Option.some.inj hyup, hyty]
  · intro hup r hr
    rw [user_get_ok hr]
    apply dictLookup_eq_none
    intro e he h1
    rcases List.mem_filterMap.mp he with ⟨y, hy, hye⟩
    unfold textureEntry at hye
    rcases hyup : y.upload with _ | uy
    · rw [hyup] at hye
      exact absurd hye (by simp)
    · rw [hyup] at hye
      have hx2 := Option.some.inj hye
      have hkey : y.tex_type.toUpper = ty.toUpper := by
        rw [← hx2] at h1
        exact h1
      have hspec := activeQuery_spec hy
      have hyty : y.tex_type = ty := hinj y hspec.1 hspec.2.1 hkey
      have hyt : y = t := huniq y hy hyty
      rw [hyt, hup] at hyup
      exact absurd hyup (by simp)
  · intro hall
    have hempty : textures_json rootUrl (activeQuery db user) = [] := by
      unfold textures_json
      rw [List.filterMap_eq_nil_iff]
      intro y hy
      have hspec := activeQuery_spec hy
      have hupload : y.upload = none := hall y hspec.1 hspec.2.1 hspec.2.2
      simp [textureEntry, hupload]
    unfold user_get
    rw [hempty]
    rfl

/-- Witness for C6: a database with one visible row and one with a single
tombstone. -/
theorem c6_profile_active_textures_witness :
    dictLookup [(String.toUpper ("skin"),
        ⟨rootUrl0 ++ "/textures/" ++ "abc", ([] : List MetadataRow)⟩)]
      (String.toUpper ("skin")) =
        some ⟨rootUrl0 ++ "/textures/" ++ "abc", []⟩ ∧
    user_get rootUrl0 dbT user0 = Except.error ⟨404, "Skins not found"⟩ := by
  constructor
  · exact (c6_profile_active_textures rootUrl0 dbV user0 ("skin") texV
      (by decide) rfl rfl (by decide)
      (by
        intro t1 ht1 h2 h3
        have ht : t1 = texV := by simpa [dbV] using ht1
        rw [ht]
        rfl)).1 upA rfl
      ⟨user0.uuid, user0.name, [(String.toUpper ("skin"),
        ⟨rootUrl0 ++ "/textures/" ++ "abc", []⟩)]⟩ rfl
  · exact (c6_profile_active_textures rootUrl0 dbT user0 ("skin") texT
      (by decide) rfl rfl (by decide)
      (by
        intro t1 ht1 h2 h3
        have ht : t1 = texT := by simpa [dbT] using ht1
        rw [ht]
        rfl)).2.2 (by decide)

end Valhalla
